import Mathlib

/-!
Verification of the two content-validation scripts of this repository:
the external-link checker (`scripts/check-external-links.py`) and the
timeline-order validator (`scripts/validate-timeline.py`).

The Python code is shallowly embedded: pure string logic becomes Lean
functions on `String` (character lists), the retry loop of `check_url`
becomes a fuel-indexed recursion over an abstract transport (one outcome
per attempt), and Python exceptions become `Except`.
-/

/-! ## String infrastructure

Boolean prefix/infix tests over character lists, with bridges to
Mathlib's `<+:` and `<:+:` relations.  Python's `a in b` on strings is
substring containment; `a.startswith(b)` is the prefix test.
-/

def prefixB : List Char → List Char → Bool
  | [], _ => true
  | _ :: _, [] => false
  | a :: as, b :: bs => a == b && prefixB as bs

def infixB (n : List Char) : List Char → Bool
  | [] => n.isEmpty
  | c :: t => prefixB n (c :: t) || infixB n t

theorem prefixB_iff (n h : List Char) : prefixB n h = true ↔ n <+: h := by
  induction n generalizing h with
  | nil => simp [prefixB]
  | cons a as ih =>
    cases h with
    | nil => simp [prefixB]
    | cons b bs =>
      simp only [prefixB, Bool.and_eq_true, beq_iff_eq, List.cons_prefix_cons]
      exact and_congr Iff.rfl (ih bs)

theorem infixB_iff (n h : List Char) : infixB n h = true ↔ n <:+: h := by
  induction h with
  | nil => simp [infixB, List.isEmpty_iff]
  | cons c t ih =>
    simp only [infixB, Bool.or_eq_true, List.infix_cons_iff, prefixB_iff, ih]

/-- Python `s in hay` for strings: `needle` occurs as a substring of `hay`. -/
def containsSub (hay needle : String) : Bool := infixB needle.data hay.data

theorem containsSub_iff (hay needle : String) :
    containsSub hay needle = true ↔ needle.data <:+: hay.data :=
  infixB_iff needle.data hay.data

/-- Python `s[:n]` on a string: the first `n` characters. -/
def strTake (s : String) (n : Nat) : String := ⟨s.data.take n⟩

/-! ## Soft-404 detection (`check_url`, success branch)

Mirrors the body-classification code run on a 2xx response in
`check_url` (check-external-links.py, lines 132-154).
-/

def soft_404_patterns : List String :=
  [ "Page Not Found",
    "page not found",
    "404 - Not Found",
    "Sorry, we couldn\x27t find",
    "This page doesn\x27t exist",
    "Nothing was found",
    "Oops! That page can\x27t be found" ]

/-- The per-pattern test of the Python loop: the pattern occurs in the body
and it occurs right after `<title>`, right after `<h1>`, or (the body
contains `<h1 class` and the pattern occurs in the first 5000 characters).
Python's `A or B or C and D` parses as `A or B or (C and D)`. -/
def softMatch (content : String) (p : String) : Bool :=
  containsSub content p &&
    (containsSub content ("<title>" ++ p) ||
     containsSub content ("<h1>" ++ p) ||
     (containsSub content "<h1 class" && containsSub (strTake content 5000) p))

def softMsg (p : String) : String :=
  "Soft 404 detected (page contains \x27" ++ p ++ "\x27)"

/-- Classification of a decoded 2xx body: first matching pattern wins,
otherwise the URL is valid. -/
def checkBody (content : String) : Bool × String :=
  match soft_404_patterns.find? (softMatch content) with
  | some p => (false, softMsg p)
  | none => (true, "")

/-- The claim's soft-404 criterion, stated over Mathlib's substring
relation: the phrase occurs in the body and is wrapped by `<title>` or
`<h1>`, or the body carries an `<h1 class` marker and the phrase occurs
in the first 5000 characters. -/
def softCond (content p : String) : Prop :=
  p.data <:+: content.data ∧
    (("<title>" ++ p).data <:+: content.data ∨
     ("<h1>" ++ p).data <:+: content.data ∨
     (("<h1 class" : String)).data <:+: content.data ∧
       p.data <:+: (strTake content 5000).data)

instance (content p : String) : Decidable (softCond content p) := by
  unfold softCond; infer_instance

theorem softMatch_iff (content p : String) :
    softMatch content p = true ↔ softCond content p := by
  simp only [softMatch, softCond, Bool.and_eq_true, Bool.or_eq_true, containsSub_iff,
    or_assoc]

/-- C1: on a 2xx body, `check_url` flags a soft 404 (with message
naming the pattern) iff some listed phrase occurs in the body wrapped in
`<title>`/`<h1>`, or within the first 5000 characters while the body
contains `<h1 class`; otherwise the body is classified valid. -/
theorem check_url_soft404_iff (content : String) :
    ((∃ p ∈ soft_404_patterns, checkBody content = (false, softMsg p)) ↔
      ∃ p ∈ soft_404_patterns, softCond content p) ∧
    ((¬ ∃ p ∈ soft_404_patterns, softCond content p) →
      checkBody content = (true, "")) := by
  constructor
  · constructor
    · rintro ⟨p, _, he⟩
      cases hfind : soft_404_patterns.find? (softMatch content) with
      | none => rw [checkBody, hfind] at he; exact absurd (congrArg Prod.fst he) (by simp)
      | some q =>
        exact ⟨q, List.mem_of_find?_eq_some hfind,
          (softMatch_iff content q).mp (List.find?_some hfind)⟩
    · rintro ⟨p, hp, hc⟩
      cases hfind : soft_404_patterns.find? (softMatch content) with
      | none =>
        exact absurd ((softMatch_iff content p).mpr hc)
          (List.find?_eq_none.mp hfind p hp)
      | some q =>
        refine ⟨q, List.mem_of_find?_eq_some hfind, ?_⟩
        rw [checkBody, hfind]
  · intro hn
    cases hfind : soft_404_patterns.find? (softMatch content) with
    | none => rw [checkBody, hfind]
    | some q =>
      exact absurd ⟨q, List.mem_of_find?_eq_some hfind,
        (softMatch_iff content q).mp (List.find?_some hfind)⟩ hn

/-- Witness for C1 at concrete bodies: a body containing
`<title>Page Not Found</title>` is flagged, and a clean body is valid. -/
theorem check_url_soft404_iff_witness :
    (∃ p ∈ soft_404_patterns,
        checkBody "<title>Page Not Found</title>" = (false, softMsg p)) ∧
    checkBody "<p>All good here</p>" = (true, "") :=
  ⟨(check_url_soft404_iff "<title>Page Not Found</title>").1.mpr
      ⟨"Page Not Found", by decide, by decide⟩,
   (check_url_soft404_iff "<p>All good here</p>").2 (by decide)⟩

/-! ## The attempt loop of `check_url`

`check_url` (check-external-links.py, lines 115-179) runs
`for attempt in range(retries + 1)` over an abstract transport: attempt
`i` yields `outcomes i`, one of a 2xx body (`urlopen` succeeded), an
`HTTPError` with a status code, a `URLError` with a reason, or any other
exception.  The embedding is fuel-indexed (`fuel` = loop iterations
left); falling out of the loop is the `result = none` case, which
`check_url` maps to the trailing `(False, "Max retries exceeded")`
return.  `sleeps` records each `time.sleep(2 ** attempt)` in order and
`attempts` counts loop iterations executed. -/

inductive Outcome where
  | success (body : String)
  | httpError (code : Nat)
  | urlError (reason : String)
  | otherError (msg : String)
deriving DecidableEq, Repr

structure RunResult where
  result : Option (Bool × String)
  sleeps : List Nat
  attempts : Nat
deriving DecidableEq, Repr

structure CheckRun where
  valid : Bool
  message : String
  sleeps : List Nat
  attempts : Nat
deriving DecidableEq, Repr

def checkUrlAux (outcomes : Nat → Outcome) (retries attempt fuel : Nat) : RunResult :=
  match fuel with
  | 0 => ⟨none, [], 0⟩
  | fuel' + 1 =>
    match outcomes attempt with
    | .success body => ⟨some (checkBody body), [], 1⟩
    | .httpError code =>
      if code = 404 then ⟨some (false, "HTTP 404 Not Found"), [], 1⟩
      else if code = 403 then ⟨some (true, ""), [], 1⟩
      else if code = 406 ∨ code = 429 ∨ code = 503 then
        if attempt < retries then
          let r := checkUrlAux outcomes retries (attempt + 1) fuel'
          ⟨r.result, 2 ^ attempt :: r.sleeps, r.attempts + 1⟩
        else
          ⟨some (false, "HTTP " ++ toString code ++ " (after " ++
            toString (retries + 1) ++ " attempts)"), [], 1⟩
      else ⟨some (false, "HTTP " ++ toString code), [], 1⟩
    | .urlError reason =>
      if attempt < retries then
        let r := checkUrlAux outcomes retries (attempt + 1) fuel'
        ⟨r.result, 2 ^ attempt :: r.sleeps, r.attempts + 1⟩
      else ⟨some (false, "Connection error: " ++ reason), [], 1⟩
    | .otherError msg => ⟨some (false, "Error: " ++ msg), [], 1⟩

/-- The whole of `check_url` for a given transport and retry budget
(the script calls it with the default budget `retries = 2`). -/
def check_url (outcomes : Nat → Outcome) (retries : Nat) : CheckRun :=
  let r := checkUrlAux outcomes retries 0 (retries + 1)
  match r.result with
  | some (v, m) => ⟨v, m, r.sleeps, r.attempts⟩
  | none => ⟨false, "Max retries exceeded", r.sleeps, r.attempts⟩

theorem checkUrlAux_retryable (outcomes : Nat → Outcome) (retries c : Nat)
    (hc : c = 406 ∨ c = 429 ∨ c = 503) (h : ∀ i, outcomes i = .httpError c) :
    ∀ fuel attempt, attempt + fuel = retries + 1 → attempt ≤ retries →
      checkUrlAux outcomes retries attempt fuel =
        ⟨some (false, "HTTP " ++ toString c ++ " (after " ++
            toString (retries + 1) ++ " attempts)"),
         (List.range (retries - attempt)).map (fun i => 2 ^ (attempt + i)), fuel⟩ := by
  intro fuel
  induction fuel with
  | zero => intro attempt h1 h2; exact absurd h1 (by omega)
  | succ f ih =>
    intro attempt h1 h2
    have h404 : ¬(c = 404) := by rcases hc with rfl | rfl | rfl <;> decide
    have h403 : ¬(c = 403) := by rcases hc with rfl | rfl | rfl <;> decide
    rw [checkUrlAux, h attempt]
    simp only [if_neg h404, if_neg h403, if_pos hc]
    by_cases hlt : attempt < retries
    · rw [if_pos hlt, ih (attempt + 1) (by omega) (by omega)]
      have hk : retries - attempt = (retries - (attempt + 1)) + 1 := by omega
      rw [hk, List.range_succ_eq_map]
      simp only [List.map_cons, List.map_map, RunResult.mk.injEq, true_and]
      constructor
      · rw [Nat.add_zero]
        refine congrArg (2 ^ attempt :: ·) (List.map_congr_left ?_)
        intro a _
        simp only [Function.comp_apply]
        congr 1
        omega
      · trivial
    · rw [if_neg hlt]
      have : retries - attempt = 0 := by omega
      rw [this]
      have : f = 0 := by omega
      rw [this]
      rfl

/-- C2: with every attempt yielding HTTP 429 (or 406 or 503), `check_url`
sleeps 1, 2, 4, ... seconds after each of the first `retries` attempts,
performs exactly `retries + 1` attempts, sleeps no further after the last
one, and returns Invalid with an "after N attempts" message. -/
theorem check_url_retry_backoff (retries c : Nat)
    (hc : c = 406 ∨ c = 429 ∨ c = 503)
    (outcomes : Nat → Outcome) (h : ∀ i, outcomes i = .httpError c) :
    check_url outcomes retries =
      ⟨false, "HTTP " ++ toString c ++ " (after " ++
          toString (retries + 1) ++ " attempts)",
       (List.range retries).map (fun i => 2 ^ i), retries + 1⟩ := by
  have haux := checkUrlAux_retryable outcomes retries c hc h (retries + 1) 0
    (by omega) (by omega)
  simp only [check_url, haux, Nat.sub_zero, Nat.zero_add]

/-- Witness for C2: a transport that always answers 429, budget 2:
three attempts, sleeps of 1 then 2 seconds, then Invalid. -/
theorem check_url_retry_backoff_witness :
    check_url (fun _ => Outcome.httpError 429) 2 =
      ⟨false, "HTTP 429 (after 3 attempts)", [1, 2], 3⟩ := by
  rw [check_url_retry_backoff 2 429 (Or.inr (Or.inl rfl))
    (fun _ => Outcome.httpError 429) (fun _ => rfl)]
  decide

/-- C3: non-retryable transport outcomes resolve on the first attempt
with no sleep: 404 gives `Invalid("HTTP 404 Not Found")`, 403 is treated
as `Valid`, any other status outside the retryable set gives
`Invalid("HTTP code")`, and an unexpected exception gives
`Invalid("Error: ...")` regardless of the remaining budget. -/
theorem check_url_first_attempt (retries : Nat) (outcomes : Nat → Outcome) :
    (outcomes 0 = .httpError 404 →
      check_url outcomes retries = ⟨false, "HTTP 404 Not Found", [], 1⟩) ∧
    (outcomes 0 = .httpError 403 →
      check_url outcomes retries = ⟨true, "", [], 1⟩) ∧
    (∀ code, outcomes 0 = .httpError code → code ≠ 403 → code ≠ 404 →
      code ≠ 406 → code ≠ 429 → code ≠ 503 →
      check_url outcomes retries = ⟨false, "HTTP " ++ toString code, [], 1⟩) ∧
    (∀ msg, outcomes 0 = .otherError msg →
      check_url outcomes retries = ⟨false, "Error: " ++ msg, [], 1⟩) := by
  refine ⟨fun h0 => ?_, fun h0 => ?_, fun code h0 c403 c404 c406 c429 c503 => ?_,
    fun msg h0 => ?_⟩ <;>
    simp [check_url, checkUrlAux, h0, *]

/-- Witness for C3 at a concrete budget: 404, 403, 500 and an unexpected
exception each resolve on attempt one. -/
theorem check_url_first_attempt_witness :
    check_url (fun _ => Outcome.httpError 404) 2 = ⟨false, "HTTP 404 Not Found", [], 1⟩ ∧
    check_url (fun _ => Outcome.httpError 403) 2 = ⟨true, "", [], 1⟩ ∧
    check_url (fun _ => Outcome.httpError 500) 2 = ⟨false, "HTTP 500", [], 1⟩ ∧
    check_url (fun _ => Outcome.otherError "boom") 2 = ⟨false, "Error: boom", [], 1⟩ :=
  ⟨(check_url_first_attempt 2 (fun _ => Outcome.httpError 404)).1 rfl,
   (check_url_first_attempt 2 (fun _ => Outcome.httpError 403)).2.1 rfl,
   by
    rw [(check_url_first_attempt 2 (fun _ => Outcome.httpError 500)).2.2.1 500 rfl
      (by decide) (by decide) (by decide) (by decide) (by decide)]
    decide,
   (check_url_first_attempt 2 (fun _ => Outcome.otherError "boom")).2.2.2 "boom" rfl⟩

theorem checkUrlAux_isSome (outcomes : Nat → Outcome) (retries : Nat) :
    ∀ fuel attempt, attempt + fuel = retries + 1 → attempt ≤ retries →
      (checkUrlAux outcomes retries attempt fuel).result.isSome = true := by
  intro fuel
  induction fuel with
  | zero => intro attempt h1 h2; exact absurd h1 (by omega)
  | succ f ih =>
    intro attempt h1 h2
    rw [checkUrlAux]
    cases houtcome : outcomes attempt with
    | success body => rfl
    | httpError code =>
      by_cases e404 : code = 404
      · simp [e404]
      by_cases e403 : code = 403
      · simp [e404, e403]
      by_cases eretry : code = 406 ∨ code = 429 ∨ code = 503
      · by_cases hlt : attempt < retries
        · simpa [e404, e403, eretry, hlt] using ih (attempt + 1) (by omega) (by omega)
        · simp [e404, e403, eretry, hlt]
      · simp [e404, e403, eretry]
    | urlError reason =>
      by_cases hlt : attempt < retries
      · simpa [hlt] using ih (attempt + 1) (by omega) (by omega)
      · simp [hlt]
    | otherError msg => rfl

/-- C10: for every transport and every retry budget, the attempt loop of
`check_url` returns through one of its explicit classification branches,
so the trailing `(False, "Max retries exceeded")` fallback after the loop
is unreachable: the loop always produces a result, and `check_url`
returns exactly that result. -/
theorem check_url_no_max_retries (outcomes : Nat → Outcome) (retries : Nat) :
    ∃ v m, (checkUrlAux outcomes retries 0 (retries + 1)).result = some (v, m) ∧
      check_url outcomes retries =
        ⟨v, m, (checkUrlAux outcomes retries 0 (retries + 1)).sleeps,
         (checkUrlAux outcomes retries 0 (retries + 1)).attempts⟩ := by
  have hs := checkUrlAux_isSome outcomes retries (retries + 1) 0 (by omega) (by omega)
  obtain ⟨p, hp⟩ := Option.isSome_iff_exists.mp hs
  obtain ⟨v, m⟩ := p
  refine ⟨v, m, hp, ?_⟩
  simp only [check_url, hp]

/-! ## URL extraction (`find_external_urls` / `should_skip_url`)

Per-line URL accumulation from check-external-links.py, lines 76-98.
The three regex rules are abstracted as the per-line match lists they
produce (`md`, `yamlU`, `bare`); the code after the matches — trailing
punctuation trim, the proper-prefix suppression of bare URLs, the
dedup check, and the skip-domain filter — is embedded as written. -/

def SKIP_DOMAINS : List String :=
  [ "localhost",
    "127.0.0.1",
    "example.com",
    "example.org",
    "github.com",
    "raw.githubusercontent.com",
    "twitter.com",
    "x.com",
    "facebook.com",
    "linkedin.com" ]

/-- Python `should_skip_url`: skip when any skip-domain occurs as a
substring anywhere in the URL text. -/
def should_skip_url (url : String) : Bool :=
  SKIP_DOMAINS.any (fun domain => containsSub url domain)

/-- Python `url.rstrip('.,;:')`. -/
def stripTrail (s : String) : String :=
  ⟨(s.data.reverse.dropWhile (fun c => c == '.' || c == ',' || c == ';' || c == ':')).reverse⟩

/-- The bare-URL branch: skip the URL when it is a proper prefix of an
already-found URL on the line, or when it was already found; otherwise
append it. -/
def addBareUrl (acc : List String) (url : String) : List String :=
  if acc.any (fun f => prefixB url.data f.data && (f != url)) then acc
  else if url ∈ acc then acc
  else acc ++ [url]

/-- URLs found by the markdown-link and YAML rules, trimmed, in match
order (markdown first). -/
def foundUrls (md yamlU : List String) : List String :=
  md.map stripTrail ++ yamlU.map stripTrail

/-- One line's `urls_found` list after all three rules ran. -/
def collectLineUrls (md yamlU bare : List String) : List String :=
  bare.foldl (fun acc u => addBareUrl acc (stripTrail u)) (foundUrls md yamlU)

/-- One line's contribution to `file_urls`: the collected URLs that
survive the skip-domain filter. -/
def lineUrls (md yamlU bare : List String) : List String :=
  (collectLineUrls md yamlU bare).filter (fun u => !should_skip_url u)

/-- C7: a URL is discarded by extraction iff some skip-listed domain
occurs as a substring anywhere in its text (also when it is part of a
longer, unrelated host name), and kept otherwise. -/
theorem extraction_skip_domain_filter :
    (∀ url, should_skip_url url = true ↔
      ∃ d ∈ SKIP_DOMAINS, d.data <:+: url.data) ∧
    (∀ md yamlU bare url, url ∈ collectLineUrls md yamlU bare →
      (url ∈ lineUrls md yamlU bare ↔
        ¬ ∃ d ∈ SKIP_DOMAINS, d.data <:+: url.data)) := by
  have hskip : ∀ url, should_skip_url url = true ↔
      ∃ d ∈ SKIP_DOMAINS, d.data <:+: url.data := by
    intro url
    simp only [should_skip_url, List.any_eq_true, containsSub_iff]
  refine ⟨hskip, fun md yamlU bare url hmem => ?_⟩
  have hiff : url ∈ lineUrls md yamlU bare ↔ should_skip_url url = false := by
    simp [lineUrls, List.mem_filter, hmem]
  rw [hiff, ← Bool.not_eq_true]
  exact not_congr (hskip url)

/-- Witness for C7: `x.com` is skip-listed and occurs inside the
unrelated host `matrix.com`, so that URL is found but discarded. -/
theorem extraction_skip_domain_filter_witness :
    should_skip_url "https://matrix.com/page" = true ∧
    "https://matrix.com/page" ∉ lineUrls [] [] ["https://matrix.com/page"] :=
  ⟨(extraction_skip_domain_filter.1 "https://matrix.com/page").mpr
      ⟨"x.com", by decide, by decide⟩,
   fun hin =>
     ((extraction_skip_domain_filter.2 [] [] ["https://matrix.com/page"]
         "https://matrix.com/page" (by decide)).mp hin)
       ⟨"x.com", by decide, by decide⟩⟩

/-- Invariant of the bare-URL pass: the initially found URLs stay an
initial segment, no later entry is a proper prefix of an earlier one
unless it was initially found, and no bare entry is a proper prefix of
an initially found URL. -/
def bareInv (found acc : List String) : Prop :=
  found <+: acc ∧
    List.Pairwise (fun f u => u ∉ found → ¬(u.data <+: f.data ∧ u ≠ f)) acc ∧
    (∀ u ∈ acc, u ∉ found → ∀ m ∈ found, ¬(u.data <+: m.data ∧ u ≠ m))

theorem addBareUrl_inv (found acc : List String) (u : String)
    (h : bareInv found acc) : bareInv found (addBareUrl acc u) := by
  obtain ⟨h1, h2, h3⟩ := h
  rw [addBareUrl]
  by_cases hany : acc.any (fun f => prefixB u.data f.data && (f != u)) = true
  · rw [if_pos hany]; exact ⟨h1, h2, h3⟩
  rw [if_neg hany]
  by_cases hcon : u ∈ acc
  · rw [if_pos hcon]; exact ⟨h1, h2, h3⟩
  rw [if_neg hcon]
  have hguard : ∀ f ∈ acc, ¬(u.data <+: f.data ∧ u ≠ f) := by
    intro f hf ⟨hpre, hne⟩
    apply hany
    rw [List.any_eq_true]
    refine ⟨f, hf, ?_⟩
    rw [Bool.and_eq_true, bne_iff_ne]
    exact ⟨(prefixB_iff u.data f.data).mpr hpre, Ne.symm hne⟩
  refine ⟨h1.trans (acc.prefix_append [u]), ?_, ?_⟩
  · rw [List.pairwise_append]
    refine ⟨h2, List.pairwise_singleton _ _, ?_⟩
    intro f hf v hv _
    rw [List.mem_singleton] at hv
    subst hv
    exact hguard f hf
  · intro v hv hnotf m hm
    rcases List.mem_append.mp hv with hv | hv
    · exact h3 v hv hnotf m hm
    · rw [List.mem_singleton] at hv
      subst hv
      exact hguard m (h1.subset hm)

theorem bareFold_inv (found : List String) :
    ∀ (bare acc : List String), bareInv found acc →
      bareInv found (bare.foldl (fun acc u => addBareUrl acc (stripTrail u)) acc)
  | [], acc, h => h
  | b :: bs, acc, h =>
    bareFold_inv found bs (addBareUrl acc (stripTrail b))
      (addBareUrl_inv found acc (stripTrail b) h)

/-- C8: on any line, a URL added by the bare-URL rule is never a proper
prefix of a URL already captured by the markdown-link or YAML rules, and
more generally the per-line result list contains no bare entry that is a
proper prefix of an entry found earlier on the same line. -/
theorem bare_url_no_shorter_dup (md yamlU bare : List String) :
    (∀ u ∈ collectLineUrls md yamlU bare, u ∉ foundUrls md yamlU →
      ∀ m ∈ foundUrls md yamlU, ¬(u.data <+: m.data ∧ u ≠ m)) ∧
    List.Pairwise (fun f u => u ∉ foundUrls md yamlU →
      ¬(u.data <+: f.data ∧ u ≠ f)) (collectLineUrls md yamlU bare) := by
  have hinit : bareInv (foundUrls md yamlU) (foundUrls md yamlU) := by
    refine ⟨List.prefix_refl _, ?_, ?_⟩
    · exact List.pairwise_of_forall_mem_list fun a _ b hb hnb => absurd hb hnb
    · exact fun v hv hnv => absurd hv hnv
  obtain ⟨_, h2, h3⟩ := bareFold_inv (foundUrls md yamlU) bare (foundUrls md yamlU) hinit
  exact ⟨h3, h2⟩

/-- Witness for C8 on a concrete line: a bare URL that survives next to
a markdown-captured URL is not a proper prefix of it. -/
theorem bare_url_no_shorter_dup_witness :
    ¬(("https://q.net" : String).data <+: ("https://x.org/a" : String).data ∧
      ("https://q.net" : String) ≠ "https://x.org/a") :=
  (bare_url_no_shorter_dup ["https://x.org/a"] [] ["https://q.net"]).1
    "https://q.net" (by decide) (by decide) "https://x.org/a" (by decide)

/-! ## Timeline validation (`validate-timeline.py`)

The parsed YAML document is embedded as `Yaml`.  `validate_timeline`
starts from the parsed value (the file-open and YAML-parse failures
return their own single-error results before this point and are not
modelled).  Python operations that can raise — `'year' not in entry`,
`entry['year']` — are embedded in `Except String`, the error being the
exception text; `isinstance(x, int)` is true for Python booleans as
well, which the embedding preserves. -/

inductive Yaml where
  | str (s : String)
  | int (n : Int)
  | bool (b : Bool)
  | null
  | list (xs : List Yaml)
  | map (kvs : List (String × Yaml))
deriving Repr

/-- Python truthiness of a value (`if not entries`). -/
def pyFalsy : Yaml → Bool
  | .str s => s == ""
  | .int n => n == 0
  | .bool b => !b
  | .null => true
  | .list xs => xs.isEmpty
  | .map kvs => kvs.isEmpty

def Yaml.isMap : Yaml → Bool
  | .map _ => true
  | _ => false

/-- First binding of a key in a mapping (YAML mapping keys are unique). -/
def lookupKey (kvs : List (String × Yaml)) (k : String) : Option Yaml :=
  (kvs.find? (fun kv => kv.1 == k)).map (fun kv => kv.2)

/-- Python `key in entry` for a string key: key lookup on a dict,
substring test on a str, element equality on a list; a TypeError on
int, bool and None. -/
def pyContains (key : String) : Yaml → Except String Bool
  | .map kvs => .ok (kvs.any (fun kv => kv.1 == key))
  | .str s => .ok (containsSub s key)
  | .list xs => .ok (xs.any (fun e => match e with | .str t => t == key | _ => false))
  | .int _ => .error "TypeError: argument of type \x27int\x27 is not iterable"
  | .bool _ => .error "TypeError: argument of type \x27bool\x27 is not iterable"
  | .null => .error "TypeError: argument of type \x27NoneType\x27 is not iterable"

/-- Python `entry[key]` for a string key. -/
def pySubscript : Yaml → String → Except String Yaml
  | .map kvs, k =>
    match lookupKey kvs k with
    | some v => .ok v
    | none => .error ("KeyError: \x27" ++ k ++ "\x27")
  | .str _, _ => .error "TypeError: string indices must be integers"
  | .list _, _ => .error "TypeError: list indices must be integers or slices, not str"
  | .int _, _ => .error "TypeError: \x27int\x27 object is not subscriptable"
  | .bool _, _ => .error "TypeError: \x27bool\x27 object is not subscriptable"
  | .null, _ => .error "TypeError: \x27NoneType\x27 object is not subscriptable"

/-- Python `isinstance(v, int)` (true for bool, a subclass of int). -/
def isInstInt : Yaml → Bool
  | .int _ => true
  | .bool _ => true
  | _ => false

/-- Python `type(v).__name__`. -/
def typeName : Yaml → String
  | .str _ => "str"
  | .int _ => "int"
  | .bool _ => "bool"
  | .null => "NoneType"
  | .list _ => "list"
  | .map _ => "dict"

mutual

/-- Python `str(v)` (`quoted = false`) and `repr(v)` (`quoted = true`),
as used by the f-strings in the error messages. -/
def pyStrAux : Bool → Yaml → String
  | quoted, .str s => if quoted then "\x27" ++ s ++ "\x27" else s
  | _, .int n => toString n
  | _, .bool true => "True"
  | _, .bool false => "False"
  | _, .null => "None"
  | _, .list xs => "[" ++ String.intercalate ", " (pyStrList xs) ++ "]"
  | _, .map kvs => "\x7b" ++ String.intercalate ", " (pyStrPairs kvs) ++ "\x7d"

def pyStrList : List Yaml → List String
  | [] => []
  | y :: ys => pyStrAux true y :: pyStrList ys

def pyStrPairs : List (String × Yaml) → List String
  | [] => []
  | (k, v) :: kvs => ("\x27" ++ k ++ "\x27: " ++ pyStrAux true v) :: pyStrPairs kvs

end

def pyStr : Yaml → String := pyStrAux false

/-- Python `entry.get(key, default)` (dicts only; `.get` on anything
else would be an AttributeError). -/
def pyGet : Yaml → String → Yaml → Except String Yaml
  | .map kvs, k, dflt => .ok ((lookupKey kvs k).getD dflt)
  | y, _, _ => .error ("AttributeError: \x27" ++ typeName y ++ "\x27 object has no attribute \x27get\x27")

/-- Python `a < b` for the year values.  Every value reaching this
comparison passed `isinstance(_, int)`, so only int/bool (which compare
as 0/1) occur; any other operand type would raise a TypeError. -/
def pyLt (a b : Yaml) : Except String Bool :=
  match a, b with
  | .int x, .int y => .ok (decide (x < y))
  | .int x, .bool v => .ok (decide (x < (if v then 1 else 0)))
  | .bool u, .int y => .ok (decide ((if u then (1 : Int) else 0) < y))
  | .bool u, .bool v => .ok (decide ((if u then (1 : Int) else 0) < (if v then 1 else 0)))
  | _, _ => .error "TypeError: \x27<\x27 not supported between instances"

/-- The per-entry structural pass (lines 38-42): for entry `i` (0-based
here, displayed 1-based), report a missing or non-integer `year`. -/
def yearErrors : Nat → List Yaml → Except String (List String)
  | _, [] => .ok []
  | i, e :: rest =>
    match pyContains "year" e with
    | .error msg => .error msg
    | .ok c =>
      if !c then
        match yearErrors (i + 1) rest with
        | .error msg => .error msg
        | .ok restErrs =>
          .ok (("Entry " ++ toString (i + 1) ++ " is missing \x27year\x27 field") :: restErrs)
      else
        match pySubscript e "year" with
        | .error msg => .error msg
        | .ok y =>
          if !(isInstInt y) then
            match yearErrors (i + 1) rest with
            | .error msg => .error msg
            | .ok restErrs =>
              .ok (("Entry " ++ toString (i + 1) ++
                ": \x27year\x27 must be an integer, got " ++ typeName y) :: restErrs)
          else
            yearErrors (i + 1) rest

/-- Python `years = [entry['year'] for entry in entries]`. -/
def mapYears : List Yaml → Except String (List Yaml)
  | [] => .ok []
  | e :: rest =>
    match pySubscript e "year" with
    | .error msg => .error msg
    | .ok y =>
      match mapYears rest with
      | .error msg => .error msg
      | .ok ys => .ok (y :: ys)

def orderMsg (t1 y1 t2 y2 : Yaml) : String :=
  "Order violation: \x27" ++ pyStr t1 ++ "\x27 (" ++ pyStr y1 ++ ") appears before \x27" ++
    pyStr t2 ++ "\x27 (" ++ pyStr y2 ++ "). Timeline must be in reverse chronological order (newest first)."

/-- The adjacent-pair scan (lines 50-58) over `entries` zipped with
`years`. -/
def orderScan : List (Yaml × Yaml) → Except String (List String)
  | [] => .ok []
  | [_] => .ok []
  | (e1, y1) :: (e2, y2) :: rest =>
    match pyLt y1 y2 with
    | .error msg => .error msg
    | .ok lt =>
      if lt then
        match pyGet e1 "title" (.str "Unknown") with
        | .error msg => .error msg
        | .ok t1 =>
          match pyGet e2 "title" (.str "Unknown") with
          | .error msg => .error msg
          | .ok t2 =>
            match orderScan ((e2, y2) :: rest) with
            | .error msg => .error msg
            | .ok tail => .ok (orderMsg t1 y1 t2 y2 :: tail)
      else
        orderScan ((e2, y2) :: rest)

/-- `validate_timeline` from the parsed document on: truthiness check,
list check, per-entry year check (short-circuiting before the ordering
scan when it reported anything), then the adjacent-pair ordering scan. -/
def validate_timeline (doc : Yaml) : Except String (Bool × List String) :=
  if pyFalsy doc then .ok (false, ["Timeline file is empty"])
  else
    match doc with
    | .list entries =>
      match yearErrors 0 entries with
      | .error msg => .error msg
      | .ok errors =>
        if errors.isEmpty then
          match mapYears entries with
          | .error msg => .error msg
          | .ok years =>
            match orderScan (entries.zip years) with
            | .error msg => .error msg
            | .ok ordErrors => .ok (ordErrors.isEmpty, ordErrors)
        else
          .ok (false, errors)
    | _ => .ok (false, ["Timeline must be a list of entries"])

/-- The claim-side notion of a structurally offending entry: the `year`
key is absent, or its value is not an int instance (non-mapping entries
are offending as well, but the code raises on them, see C4). -/
def offending : Yaml → Bool
  | .map kvs =>
    match lookupKey kvs "year" with
    | some v => !isInstInt v
    | none => true
  | _ => true

/-- The claim-side reading of an entry that carries an integer `year`. -/
def entryIntYear : Yaml → Option Int
  | .map kvs =>
    match lookupKey kvs "year" with
    | some (.int n) => some n
    | _ => none
  | _ => none

theorem lookupKey_isSome (kvs : List (String × Yaml)) (k : String) :
    (lookupKey kvs k).isSome = kvs.any (fun kv => kv.1 == k) := by
  induction kvs with
  | nil => rfl
  | cons kv rest ih =>
    rw [lookupKey, List.any_cons]
    by_cases h : (kv.1 == k) = true
    · rw [List.find?_cons_of_pos rest h, h, Bool.true_or]; rfl
    · rw [List.find?_cons_of_neg rest h]
      have h' : (kv.1 == k) = false := by rwa [Bool.not_eq_true] at h
      rw [h', Bool.false_or]
      exact ih

theorem offending_false (e : Yaml) (hm : e.isMap = true) (h : offending e = false) :
    ∃ v, pySubscript e "year" = .ok v ∧ isInstInt v = true := by
  cases e <;> simp only [Yaml.isMap] at hm <;>
    try exact absurd hm (by decide)
  case map kvs =>
  rw [offending] at h
  split at h
  · next v heq =>
    refine ⟨v, ?_, by simpa using h⟩
    rw [pySubscript, heq]
  · exact absurd h (by simp)

theorem entryIntYear_cases (e : Yaml) (n : Int) (h : entryIntYear e = some n) :
    ∃ kvs, e = .map kvs ∧ lookupKey kvs "year" = some (.int n) := by
  cases e <;> simp only [entryIntYear] at h <;> try exact absurd h (by simp)
  case map kvs =>
  refine ⟨kvs, rfl, ?_⟩
  split at h
  · next m heq =>
    injection h with h'
    rw [← h']
    exact heq
  · exact absurd h (by simp)

theorem entryIntYear_ops (e : Yaml) (n : Int) (h : entryIntYear e = some n) :
    pyContains "year" e = .ok true ∧ pySubscript e "year" = .ok (.int n) ∧
      e.isMap = true ∧ offending e = false := by
  obtain ⟨kvs, rfl, hlook⟩ := entryIntYear_cases e n h
  refine ⟨?_, ?_, rfl, ?_⟩
  · rw [pyContains]
    have : (lookupKey kvs "year").isSome = true := by rw [hlook]; rfl
    rw [lookupKey_isSome] at this
    rw [this]
  · rw [pySubscript, hlook]
  · rw [offending, hlook]
    rfl

theorem data_pre_append (pre x : String) : pre.data <+: (pre ++ x).data := by
  obtain ⟨pd⟩ := pre
  obtain ⟨xd⟩ := x
  exact ⟨xd, rfl⟩

theorem data_pre_append_of_pre (pre s x : String) (h : pre.data <+: s.data) :
    pre.data <+: (s ++ x).data :=
  h.trans (data_pre_append s x)

theorem yearErrors_maps (xs : List Yaml) (hmap : ∀ e ∈ xs, e.isMap = true) :
    ∀ i, ∃ errs, yearErrors i xs = .ok errs ∧
      errs.length = (xs.filter offending).length ∧
      (∀ m ∈ errs, ("Entry " : String).data <+: m.data) ∧
      (errs = [] ↔ ∀ e ∈ xs, offending e = false) := by
  induction xs with
  | nil =>
    intro i
    exact ⟨[], rfl, rfl, by simp, by simp⟩
  | cons e rest ih =>
    intro i
    have hm : e.isMap = true := hmap e (List.mem_cons_self e rest)
    obtain ⟨kvs, rfl⟩ : ∃ kvs, e = Yaml.map kvs := by
      cases e with
      | map kvs => exact ⟨kvs, rfl⟩
      | str s => simp [Yaml.isMap] at hm
      | int n => simp [Yaml.isMap] at hm
      | bool b => simp [Yaml.isMap] at hm
      | null => simp [Yaml.isMap] at hm
      | list ys => simp [Yaml.isMap] at hm
    obtain ⟨errs, hrest, hlen, hpre, hiff⟩ :=
      ih (fun x hx => hmap x (List.mem_cons_of_mem _ hx)) (i + 1)
    by_cases hany : (kvs.any fun kv => kv.1 == "year") = true
    · have hsome : (lookupKey kvs "year").isSome = true := by
        rw [lookupKey_isSome]; exact hany
      obtain ⟨v, hv⟩ := Option.isSome_iff_exists.mp hsome
      by_cases hint : isInstInt v = true
      · have hoff : offending (Yaml.map kvs) = false := by
          rw [offending, hv]
          simp [hint]
        have heval : yearErrors i (Yaml.map kvs :: rest) = yearErrors (i + 1) rest := by
          rw [yearErrors]
          simp [pyContains, pySubscript, hany, hv, hint]
        refine ⟨errs, heval.trans hrest, ?_, hpre, ?_⟩
        · rw [List.filter_cons, hoff]
          simpa using hlen
        · rw [List.forall_mem_cons]
          simpa [hoff] using hiff
      · have hintf : isInstInt v = false := by rwa [Bool.not_eq_true] at hint
        have hoff : offending (Yaml.map kvs) = true := by
          rw [offending, hv]
          simp [hintf]
        have heval : yearErrors i (Yaml.map kvs :: rest) =
            match yearErrors (i + 1) rest with
            | .error msg => .error msg
            | .ok restErrs => .ok (("Entry " ++ toString (i + 1) ++
                ": \x27year\x27 must be an integer, got " ++ typeName v) :: restErrs) := by
          rw [yearErrors]
          simp [pyContains, pySubscript, hany, hv, hintf]
        refine ⟨("Entry " ++ toString (i + 1) ++
            ": \x27year\x27 must be an integer, got " ++ typeName v) :: errs,
          by rw [heval, hrest], ?_, ?_, ?_⟩
        · rw [List.filter_cons, hoff]
          simpa using hlen
        · intro m hmm
          rcases List.mem_cons.mp hmm with rfl | hmem
          · exact data_pre_append_of_pre _ _ _
              (data_pre_append_of_pre _ _ _ (data_pre_append _ _))
          · exact hpre m hmem
        · constructor
          · intro habs; exact absurd habs (List.cons_ne_nil _ _)
          · intro hall
            exact absurd (hall _ (List.mem_cons_self _ _)) (by simp [hoff])
    · have hanyf : (kvs.any fun kv => kv.1 == "year") = false := by
        rwa [Bool.not_eq_true] at hany
      have hoff : offending (Yaml.map kvs) = true := by
        have hnone : lookupKey kvs "year" = none := by
          have := lookupKey_isSome kvs "year"
          rw [hanyf] at this
          exact Option.not_isSome_iff_eq_none.mp (by rw [this]; decide)
        rw [offending, hnone]
      have heval : yearErrors i (Yaml.map kvs :: rest) =
          match yearErrors (i + 1) rest with
          | .error msg => .error msg
          | .ok restErrs => .ok (("Entry " ++ toString (i + 1) ++
              " is missing \x27year\x27 field") :: restErrs) := by
        rw [yearErrors]
        simp [pyContains, hanyf]
      refine ⟨("Entry " ++ toString (i + 1) ++ " is missing \x27year\x27 field") :: errs,
        by rw [heval, hrest], ?_, ?_, ?_⟩
      · rw [List.filter_cons, hoff]
        simpa using hlen
      · intro m hmm
        rcases List.mem_cons.mp hmm with rfl | hmem
        · exact data_pre_append_of_pre _ _ _ (data_pre_append _ _)
        · exact hpre m hmem
      · constructor
        · intro habs; exact absurd habs (List.cons_ne_nil _ _)
        · intro hall
          exact absurd (hall _ (List.mem_cons_self _ _)) (by simp [hoff])

theorem isMap_cases (e : Yaml) (hm : e.isMap = true) : ∃ kvs, e = Yaml.map kvs := by
  cases e with
  | map kvs => exact ⟨kvs, rfl⟩
  | str s => simp [Yaml.isMap] at hm
  | int n => simp [Yaml.isMap] at hm
  | bool b => simp [Yaml.isMap] at hm
  | null => simp [Yaml.isMap] at hm
  | list ys => simp [Yaml.isMap] at hm

theorem prefix_total {α : Type} : ∀ (l₁ l₂ l₃ : List α), l₁ <+: l₃ → l₂ <+: l₃ →
    l₁ <+: l₂ ∨ l₂ <+: l₁
  | [], _, _, _, _ => Or.inl List.nil_prefix
  | _, [], _, _, _ => Or.inr List.nil_prefix
  | a :: t₁, b :: t₂, l₃, h1, h2 => by
    obtain ⟨s1, hs1⟩ := h1
    obtain ⟨s2, hs2⟩ := h2
    rw [← hs1, List.cons_append, List.cons_append] at hs2
    injection hs2 with hb hs
    subst hb
    rcases prefix_total t₁ t₂ (t₁ ++ s1) (List.prefix_append t₁ s1) ⟨s2, hs⟩ with hp | hp
    · exact Or.inl (List.cons_prefix_cons.mpr ⟨rfl, hp⟩)
    · exact Or.inr (List.cons_prefix_cons.mpr ⟨rfl, hp⟩)

theorem entry_msg_not_order (m : String)
    (h : ("Entry " : String).data <+: m.data) :
    ¬ ("Order violation" : String).data <+: m.data := by
  intro h2
  rcases prefix_total _ _ _ h h2 with hp | hp
  · exact absurd hp (by decide)
  · exact absurd hp (by decide)

/-- C6: on a sequence of mapping entries where some entry misses `year`
or carries a non-integer `year`, `validate_timeline` is invalid with one
structural error per offending entry, all returned together, and the
ordering check contributes no error. -/
theorem timeline_structural_short_circuit (xs : List Yaml)
    (hmap : ∀ e ∈ xs, e.isMap = true) (hbad : ∃ e ∈ xs, offending e = true) :
    ∃ errs, validate_timeline (.list xs) = .ok (false, errs) ∧
      errs ≠ [] ∧
      errs.length = (xs.filter offending).length ∧
      (∀ m ∈ errs, ("Entry " : String).data <+: m.data) ∧
      (∀ m ∈ errs, ¬ ("Order violation" : String).data <+: m.data) := by
  obtain ⟨e0, he0, hoff0⟩ := hbad
  obtain ⟨errs, herr, hlen, hpre, hiff⟩ := yearErrors_maps xs hmap 0
  have hne : errs ≠ [] := by
    intro hnil
    exact absurd (hiff.mp hnil e0 he0) (by simp [hoff0])
  have hfalsy : pyFalsy (Yaml.list xs) = false := by
    cases xs with
    | nil => exact absurd he0 (List.not_mem_nil e0)
    | cons a l => rfl
  have hisEmpty : errs.isEmpty = false := by
    cases errs with
    | nil => exact absurd rfl hne
    | cons a l => rfl
  refine ⟨errs, ?_, hne, hlen, hpre, fun m hm => entry_msg_not_order m (hpre m hm)⟩
  rw [validate_timeline, if_neg (by simp [hfalsy])]
  simp [herr, hisEmpty]

/-- Witness for C6: a single empty-mapping entry (so `year` is missing)
yields an invalid result with a nonempty error list. -/
theorem timeline_structural_short_circuit_witness :
    ∃ errs, validate_timeline (.list [.map []]) = .ok (false, errs) ∧ errs ≠ [] := by
  obtain ⟨errs, h1, h2, _⟩ := timeline_structural_short_circuit [.map []]
    (by intro e he; rw [List.mem_singleton] at he; subst he; rfl)
    ⟨.map [], List.mem_singleton.mpr rfl, rfl⟩
  exact ⟨errs, h1, h2⟩

theorem pyLt_ok (a b : Yaml) (ha : isInstInt a = true) (hb : isInstInt b = true) :
    ∃ v, pyLt a b = .ok v := by
  cases a <;> simp [isInstInt] at ha <;> cases b <;> simp [isInstInt] at hb <;>
    exact ⟨_, rfl⟩

theorem mapYears_ok (xs : List Yaml)
    (h : ∀ e ∈ xs, ∃ v, pySubscript e "year" = .ok v ∧ isInstInt v = true) :
    ∃ ys, mapYears xs = .ok ys ∧ ys.length = xs.length ∧
      ∀ y ∈ ys, isInstInt y = true := by
  induction xs with
  | nil => exact ⟨[], rfl, rfl, by simp⟩
  | cons e rest ih =>
    obtain ⟨v, hv, hvi⟩ := h e (List.mem_cons_self _ _)
    obtain ⟨ys, hys, hlen, hall⟩ := ih (fun x hx => h x (List.mem_cons_of_mem _ hx))
    refine ⟨v :: ys, ?_, by simp [hlen], ?_⟩
    · rw [mapYears, hv, hys]
    · intro y hy
      rcases List.mem_cons.mp hy with rfl | hy
      · exact hvi
      · exact hall y hy

theorem orderScan_ok (ps : List (Yaml × Yaml))
    (h : ∀ p ∈ ps, p.1.isMap = true ∧ isInstInt p.2 = true) :
    ∃ es, orderScan ps = .ok es := by
  induction ps with
  | nil => exact ⟨[], rfl⟩
  | cons p1 rest ih =>
    cases rest with
    | nil => exact ⟨[], rfl⟩
    | cons p2 rest2 =>
      obtain ⟨e1, y1⟩ := p1
      obtain ⟨e2, y2⟩ := p2
      obtain ⟨hm1, hi1⟩ := h (e1, y1) (List.mem_cons_self _ _)
      obtain ⟨hm2, hi2⟩ := h (e2, y2) (List.mem_cons_of_mem _ (List.mem_cons_self _ _))
      obtain ⟨kvs1, rfl⟩ := isMap_cases e1 hm1
      obtain ⟨kvs2, rfl⟩ := isMap_cases e2 hm2
      obtain ⟨lt, hlt⟩ := pyLt_ok y1 y2 hi1 hi2
      obtain ⟨tail, htail⟩ := ih (fun p hp => h p (List.mem_cons_of_mem _ hp))
      by_cases hltv : lt = true
      · subst hltv
        refine ⟨orderMsg ((lookupKey kvs1 "title").getD (Yaml.str "Unknown")) y1
          ((lookupKey kvs2 "title").getD (Yaml.str "Unknown")) y2 :: tail, ?_⟩
        rw [orderScan, hlt]
        simp [htail, pyGet]
      · have hltf : lt = false := by rwa [Bool.not_eq_true] at hltv
        subst hltf
        refine ⟨tail, ?_⟩
        rw [orderScan, hlt]
        simp [htail]

/-- C4 counterexample: a loaded document whose entry is the integer 5
makes `validate_timeline` raise a `TypeError` (the membership test
`'year' not in 5`) instead of reporting a structural error. -/
theorem timeline_raises_on_int_entry :
    validate_timeline (.list [.int 5]) =
      .error "TypeError: argument of type \x27int\x27 is not iterable" := rfl

theorem timeline_nonlist_ok (doc : Yaml)
    (hnl : ∀ xs, doc = Yaml.list xs → False) :
    ∃ r, validate_timeline doc = .ok r := by
  by_cases hf : pyFalsy doc = true
  · refine ⟨(false, ["Timeline file is empty"]), ?_⟩
    rw [validate_timeline, if_pos hf]
    exact hnl
  · refine ⟨(false, ["Timeline must be a list of entries"]), ?_⟩
    rw [validate_timeline, if_neg hf]
    exact hnl

/-- C4 (amended): for every loaded document that is not a sequence, or
is a sequence all of whose entries are mappings, `validate_timeline`
returns an (is_valid, error-list) result and raises no exception; a
non-mapping entry (integer, null, boolean — or a string or list entry in
the cases where subscripting is reached) raises a `TypeError` instead,
as the counterexample shows. -/
theorem timeline_no_raise_on_maps (doc : Yaml)
    (h : ∀ xs, doc = Yaml.list xs → ∀ e ∈ xs, e.isMap = true) :
    ∃ r, validate_timeline doc = .ok r := by
  cases doc with
  | list xs =>
    by_cases hf : pyFalsy (Yaml.list xs) = true
    · exact ⟨(false, ["Timeline file is empty"]), by rw [validate_timeline, if_pos hf]⟩
    have hmap := h xs rfl
    obtain ⟨errs, herr, hlen, hpre, hiff⟩ := yearErrors_maps xs hmap 0
    rw [validate_timeline, if_neg hf]
    by_cases hnil : errs.isEmpty = true
    · have hnone : ∀ e ∈ xs, offending e = false :=
        hiff.mp (List.isEmpty_iff.mp hnil)
      have hsub : ∀ e ∈ xs, ∃ v, pySubscript e "year" = .ok v ∧ isInstInt v = true :=
        fun e he => offending_false e (hmap e he) (hnone e he)
      obtain ⟨ys, hys, hylen, hyall⟩ := mapYears_ok xs hsub
      have hzip : ∀ p ∈ xs.zip ys, p.1.isMap = true ∧ isInstInt p.2 = true := by
        intro p hp
        obtain ⟨e, y⟩ := p
        obtain ⟨h1, h2⟩ := List.of_mem_zip hp
        exact ⟨hmap _ h1, hyall _ h2⟩
      obtain ⟨es, hes⟩ := orderScan_ok (xs.zip ys) hzip
      exact ⟨(es.isEmpty, es), by simp [herr, hnil, hys, hes]⟩
    · have hnilf : errs.isEmpty = false := by rwa [Bool.not_eq_true] at hnil
      exact ⟨(false, errs), by simp [herr, hnilf]⟩
  | str s => exact timeline_nonlist_ok _ (fun xs hh => Yaml.noConfusion hh)
  | int n => exact timeline_nonlist_ok _ (fun xs hh => Yaml.noConfusion hh)
  | bool b => exact timeline_nonlist_ok _ (fun xs hh => Yaml.noConfusion hh)
  | null => exact timeline_nonlist_ok _ (fun xs hh => Yaml.noConfusion hh)
  | map kvs => exact timeline_nonlist_ok _ (fun xs hh => Yaml.noConfusion hh)

/-- Witness for C4: a one-entry mapping document validates without an
exception. -/
theorem timeline_no_raise_on_maps_witness :
    ∃ r, validate_timeline (.list [.map [("year", .int 2020)]]) = .ok r :=
  timeline_no_raise_on_maps _ (by
    intro xs hx
    injection hx with hx'
    subst hx'
    intro e he
    rw [List.mem_singleton] at he
    subst he
    rfl)

theorem yearErrors_int_years (xs : List Yaml)
    (h : ∀ e ∈ xs, ∃ n : Int, entryIntYear e = some n) :
    ∀ i, yearErrors i xs = .ok [] := by
  induction xs with
  | nil => intro i; rfl
  | cons e rest ih =>
    intro i
    obtain ⟨n, hn⟩ := h e (List.mem_cons_self _ _)
    obtain ⟨hc, hs, _, _⟩ := entryIntYear_ops e n hn
    have ihr := ih (fun x hx => h x (List.mem_cons_of_mem _ hx)) (i + 1)
    rw [yearErrors, hc, hs]
    simpa [isInstInt] using ihr

theorem mapYears_int_years (xs : List Yaml) :
    ∀ ys : List Int, xs.map entryIntYear = ys.map some →
      mapYears xs = .ok (ys.map Yaml.int) := by
  induction xs with
  | nil =>
    intro ys hy
    cases ys with
    | nil => rfl
    | cons b bs => simp at hy
  | cons e rest ih =>
    intro ys hy
    cases ys with
    | nil => simp at hy
    | cons n ns =>
      rw [List.map_cons, List.map_cons] at hy
      injection hy with h1 h2
      obtain ⟨hc, hs, _, _⟩ := entryIntYear_ops e n h1
      rw [List.map_cons, mapYears, hs, ih ns h2]

/-- The claim-side title of an entry as the error message displays it:
Python `entry.get` of the `title` key with default `Unknown`. -/
def titleOf : Yaml → Yaml
  | .map kvs => (lookupKey kvs "title").getD (.str "Unknown")
  | _ => .str "Unknown"

/-- The claim-side expected ordering-error list over (entry, year)
pairs: one `orderMsg` — naming the titles of both entries (or "Unknown"
when absent) and both years — per adjacent pair with
`year[i] < year[i+1]`, in scan order. -/
def expectedOrderErrors : List (Yaml × Int) → List String
  | [] => []
  | [_] => []
  | (e1, y1) :: (e2, y2) :: rest =>
    if y1 < y2 then
      orderMsg (titleOf e1) (.int y1) (titleOf e2) (.int y2) ::
        expectedOrderErrors ((e2, y2) :: rest)
    else
      expectedOrderErrors ((e2, y2) :: rest)

theorem orderScan_int_years (xs : List Yaml) :
    ∀ ys : List Int, xs.map entryIntYear = ys.map some →
      orderScan (xs.zip (ys.map Yaml.int)) = .ok (expectedOrderErrors (xs.zip ys)) ∧
      (expectedOrderErrors (xs.zip ys)).length =
        (ys.zip ys.tail).countP (fun p => decide (p.1 < p.2)) ∧
      (expectedOrderErrors (xs.zip ys) = [] ↔ ∀ p ∈ ys.zip ys.tail, p.2 ≤ p.1) := by
  induction xs with
  | nil =>
    intro ys hy
    cases ys with
    | nil => exact ⟨rfl, rfl, by simp [expectedOrderErrors]⟩
    | cons b bs => simp at hy
  | cons e1 rest ih =>
    intro ys hy
    cases ys with
    | nil => simp at hy
    | cons v1 vs =>
      rw [List.map_cons, List.map_cons] at hy
      injection hy with h1 h2
      cases rest with
      | nil =>
        cases vs with
        | nil => exact ⟨rfl, rfl, by simp [expectedOrderErrors]⟩
        | cons b bs => simp at h2
      | cons e2 rest2 =>
        cases vs with
        | nil => simp at h2
        | cons v2 vs2 =>
          obtain ⟨hscan, hlen, hiff⟩ := ih (v2 :: vs2) h2
          have h2b := h2
          rw [List.map_cons, List.map_cons] at h2b
          injection h2b with h21 h22
          obtain ⟨kvs1, rfl, _⟩ := entryIntYear_cases e1 v1 h1
          obtain ⟨kvs2, rfl, _⟩ := entryIntYear_cases e2 v2 h21
          simp only [List.map_cons, List.zip_cons_cons] at hscan hlen hiff ⊢
          rw [List.tail_cons] at hlen hiff
          by_cases hlt : v1 < v2
          · refine ⟨?_, ?_, ?_⟩
            · rw [orderScan, expectedOrderErrors, if_pos hlt]
              simp [pyLt, hlt, pyGet, titleOf, hscan]
            · rw [expectedOrderErrors, if_pos hlt, List.length_cons, hlen,
                List.tail_cons, List.zip_cons_cons, List.countP_cons]
              simp [hlt]
            · rw [expectedOrderErrors, if_pos hlt]
              constructor
              · intro habs; exact absurd habs (List.cons_ne_nil _ _)
              · intro hall
                have hv : (v1, v2) ∈ (v1 :: v2 :: vs2).zip (v1 :: v2 :: vs2).tail := by
                  rw [List.tail_cons, List.zip_cons_cons]
                  exact List.mem_cons_self _ _
                exact absurd hlt (not_lt.mpr (hall _ hv))
          · have hle : v2 ≤ v1 := not_lt.mp hlt
            refine ⟨?_, ?_, ?_⟩
            · rw [orderScan, expectedOrderErrors, if_neg hlt]
              simp [pyLt, hlt, hscan]
            · rw [expectedOrderErrors, if_neg hlt, hlen, List.tail_cons,
                List.zip_cons_cons, List.countP_cons]
              simp [hlt]
            · rw [expectedOrderErrors, if_neg hlt, List.tail_cons, List.zip_cons_cons,
                List.forall_mem_cons]
              constructor
              · intro he; exact ⟨hle, hiff.mp he⟩
              · intro hp; exact hiff.mpr hp.2

/-- C5 counterexample: the empty sequence — vacuously a sequence of
mapping entries with integer years whose adjacent pairs are all ordered
— still yields one error ("Timeline file is empty") rather than zero,
so the claimed equivalence fails at the empty sequence. -/
theorem timeline_order_empty_counterexample :
    validate_timeline (.list []) = .ok (false, ["Timeline file is empty"]) := rfl

/-- C5 (amended): for every nonempty sequence of mapping entries that
all carry an integer `year`, the returned error list is exactly one
ordering-violation message per adjacent pair with `year[i] < year[i+1]`,
in scan order, each naming the titles of both entries (or "Unknown"
when the `title` key is absent) and both years (`expectedOrderErrors`);
hence the
result is valid with zero errors iff every adjacent pair satisfies
`year[i] >= year[i+1]`, and the error count equals the number of
violating adjacent pairs. -/
theorem timeline_order_violations (xs : List Yaml) (ys : List Int)
    (hne : xs ≠ []) (h : xs.map entryIntYear = ys.map some) :
    validate_timeline (.list xs) =
        .ok ((expectedOrderErrors (xs.zip ys)).isEmpty, expectedOrderErrors (xs.zip ys)) ∧
      (expectedOrderErrors (xs.zip ys) = [] ↔ ∀ p ∈ ys.zip ys.tail, p.2 ≤ p.1) ∧
      (expectedOrderErrors (xs.zip ys)).length =
        (ys.zip ys.tail).countP (fun p => decide (p.1 < p.2)) := by
  have hint : ∀ e ∈ xs, ∃ n : Int, entryIntYear e = some n := by
    intro e he
    have hmem : entryIntYear e ∈ ys.map some := by
      rw [← h]
      exact List.mem_map_of_mem _ he
    obtain ⟨n, _, hn⟩ := List.mem_map.mp hmem
    exact ⟨n, hn.symm⟩
  have hfalsy : pyFalsy (Yaml.list xs) = false := by
    cases xs with
    | nil => exact absurd rfl hne
    | cons a l => rfl
  have hye := yearErrors_int_years xs hint 0
  have hmy := mapYears_int_years xs ys h
  obtain ⟨hscan, hlen, hiff⟩ := orderScan_int_years xs ys h
  refine ⟨?_, hiff, hlen⟩
  rw [validate_timeline, if_neg (by simp [hfalsy])]
  simp [hye, hmy, hscan]

/-- Witness for C5: the ascending two-entry timeline (titles absent)
yields exactly the one ordering error naming both titles as Unknown and
both years; the descending one is valid with zero errors. -/
theorem timeline_order_violations_witness :
    validate_timeline
        (.list [.map [("year", .int 2020)], .map [("year", .int 2021)]]) =
      .ok (false,
        ["Order violation: \x27Unknown\x27 (2020) appears before \x27Unknown\x27 (2021). Timeline must be in reverse chronological order (newest first)."]) ∧
    validate_timeline
        (.list [.map [("year", .int 2021)], .map [("year", .int 2020)]]) =
      .ok (true, []) := by
  constructor
  · rw [(timeline_order_violations
      [.map [("year", .int 2020)], .map [("year", .int 2021)]] [2020, 2021]
      (List.cons_ne_nil _ _) (by decide)).1]
    rfl
  · rw [(timeline_order_violations
      [.map [("year", .int 2021)], .map [("year", .int 2020)]] [2021, 2020]
      (List.cons_ne_nil _ _) (by decide)).1]
    rfl

/-! ## Report generation and exit status (`main`)

`main` (check-external-links.py, lines 182-253) exits 0 immediately
when the extracted URL map is empty; otherwise it deduplicates the URLs
(first-seen order of the insertion-ordered dict), checks each unique URL
once (the thread pool affects only completion order, not the set of
broken links), and exits 1 iff the broken list is nonempty. -/

def uniqueUrls (urlMap : List (String × List (Nat × String))) : List String :=
  urlMap.foldl (fun acc entry =>
    entry.2.foldl (fun acc lu => if lu.2 ∈ acc then acc else acc ++ [lu.2]) acc) []

def mainExitCode (urlMap : List (String × List (Nat × String)))
    (check : String → Bool × String) : Nat :=
  if urlMap.isEmpty then 0
  else
    let broken := (uniqueUrls urlMap).filter (fun u => !(check u).1)
    if broken.isEmpty then 0 else 1

/-- C9: the link checker exits 0 when no unique URL was found, exits 0
when every checked URL is valid, and exits 1 when some URL is invalid. -/
theorem main_exit_code (urlMap : List (String × List (Nat × String)))
    (check : String → Bool × String) :
    (uniqueUrls urlMap = [] → mainExitCode urlMap check = 0) ∧
    ((∀ u ∈ uniqueUrls urlMap, (check u).1 = true) → mainExitCode urlMap check = 0) ∧
    ((∃ u ∈ uniqueUrls urlMap, (check u).1 = false) → mainExitCode urlMap check = 1) := by
  refine ⟨?_, ?_, ?_⟩
  · intro h
    rw [mainExitCode]
    by_cases he : urlMap.isEmpty = true
    · rw [if_pos he]
    · rw [if_neg he]
      simp [h]
  · intro h
    rw [mainExitCode]
    by_cases he : urlMap.isEmpty = true
    · rw [if_pos he]
    · rw [if_neg he]
      have hnil : (uniqueUrls urlMap).filter (fun u => !(check u).1) = [] := by
        rw [List.filter_eq_nil_iff]
        intro a ha
        simp [h a ha]
      simp [hnil]
  · intro hex
    obtain ⟨u, hu, hinv⟩ := hex
    have hne : urlMap.isEmpty = false := by
      cases urlMap with
      | nil =>
        rw [show uniqueUrls ([] : List (String × List (Nat × String))) = [] from rfl] at hu
        exact absurd hu (List.not_mem_nil u)
      | cons a l => rfl
    rw [mainExitCode, if_neg (by simp [hne])]
    have hmem : u ∈ (uniqueUrls urlMap).filter (fun u => !(check u).1) :=
      List.mem_filter.mpr ⟨hu, by simp [hinv]⟩
    have hbe : ((uniqueUrls urlMap).filter (fun u => !(check u).1)).isEmpty = false := by
      cases hfe : (uniqueUrls urlMap).filter (fun u => !(check u).1) with
      | nil => rw [hfe] at hmem; exact absurd hmem (List.not_mem_nil u)
      | cons a l => rfl
    simp [hbe]

/-- Witness for C9 at concrete inputs: empty map, an all-valid map, and
a map with one broken URL. -/
theorem main_exit_code_witness :
    mainExitCode [] (fun _ => (true, "")) = 0 ∧
    mainExitCode [("a.md", [(1, "https://ok.net")])] (fun _ => (true, "")) = 0 ∧
    mainExitCode [("a.md", [(1, "https://bad.net")])]
      (fun _ => (false, "HTTP 404 Not Found")) = 1 :=
  ⟨(main_exit_code [] (fun _ => (true, ""))).1 rfl,
   (main_exit_code [("a.md", [(1, "https://ok.net")])] (fun _ => (true, ""))).2.1
     (by decide),
   (main_exit_code [("a.md", [(1, "https://bad.net")])]
       (fun _ => (false, "HTTP 404 Not Found"))).2.2
     ⟨"https://bad.net", by decide, rfl⟩⟩
